import Mathlib

/-!
Shallow embedding of the forward-bot repository core
(`message_forwarder.py`, `src/core/config_manager.py`) in Lean 4.

Conventions of the embedding:
* Python `None`-able values become `Option`; Python truthiness of a value
  is modelled by an explicit `…Truthy` function (empty string, `None` and
  `0` are falsy).
* The asynchronous transport is modelled by an oracle `Nat → …Outcome`
  giving the outcome of each attempt; sleeps are recorded in a trace.
* Python dictionaries (`defaultdict`) become association lists, sets become
  lists with membership-based insert/erase.
* The server timestamp `msg.date.timestamp()` is modelled as a natural
  number; only its ordering is ever used by the code.
* A bare Python `raise` in a `finally` block runs after the `except`
  clause has completed (or after a `return`), at which point there is no
  active exception, so it raises `RuntimeError`; this is modelled by the
  result `RetryResult.raisedRuntime`.
-/

namespace ForwardBot

/-- `MEDIA_GROUP_TIMEOUT = 2` from message_forwarder.py. -/
def MEDIA_GROUP_TIMEOUT : Nat := 2

/-- `MAX_RETRIES = 3` from message_forwarder.py. -/
def MAX_RETRIES : Nat := 3

/-- `RETRY_DELAY = 1` from message_forwarder.py. -/
def RETRY_DELAY : Nat := 1

/-- `MAX_MEDIA_GROUP_SIZE = 10` from message_forwarder.py. -/
def MAX_MEDIA_GROUP_SIZE : Nat := 10

/-! ### Config Gate (`ConfigManager`, src/core/config_manager.py) -/

/-- The in-memory configuration dictionary: `source_id` and
`destination_id`, both nullable integers. -/
structure Config where
  source_id : Option Int
  destination_id : Option Int
deriving DecidableEq

/-- The failure reasons actually raised by `ConfigManager.validate_config`
(each is a `ValueError` with a distinct message). -/
inductive ConfigErrorReason where
  /-- "Source and destination channels cannot be the same" -/
  | sourceEqualsDestination
  /-- "Invalid source channel ID format" -/
  | malformedSource
  /-- "Invalid destination channel ID format" -/
  | malformedDestination
deriving DecidableEq

/-- Python `isinstance(x, int) and x < 0` on a nullable integer. -/
def isNegInt : Option Int → Bool
  | none => false
  | some n => n < 0

/-- `ConfigManager.validate_config`, lines 39-53: first the equality check
(note that two unset identifiers compare equal, since `None == None` in
Python), then the source format check, then the destination format check. -/
def validate_config (c : Config) : Except ConfigErrorReason Unit :=
  if c.source_id = c.destination_id then
    .error .sourceEqualsDestination
  else if !isNegInt c.source_id then
    .error .malformedSource
  else if !isNegInt c.destination_id then
    .error .malformedDestination
  else
    .ok ()

/-- `true` iff `validate_config` does not raise. -/
def validOk (c : Config) : Bool :=
  match validate_config c with
  | .ok _ => true
  | .error _ => false

/-- The reasons named by the specification for `validate()`. -/
inductive SpecConfigReason where
  | missingSource
  | missingDestination
  | sourceEqualsDestination
  | malformedSource
  | malformedDestination
deriving DecidableEq

/-- Modelled from the spec: the specification words for `validate()`
(section 4.1 and the claim text), used only for comparison with
`validate_config`: an unset source fails with `MissingSource`, an unset
destination with `MissingDestination`, equal identifiers with
`SourceEqualsDestination`, and a non-negative-integer identifier with the
respective `Malformed…` reason. -/
def validate_specModel (c : Config) : Except SpecConfigReason Unit :=
  match c.source_id with
  | none => .error .missingSource
  | some s =>
    match c.destination_id with
    | none => .error .missingDestination
    | some d =>
      if s = d then .error .sourceEqualsDestination
      else if !(s < 0 : Bool) then .error .malformedSource
      else if !(d < 0 : Bool) then .error .malformedDestination
      else .ok ()

/-! ### Retry Executor (`MessageForwarder.retry_operation`, lines 35-62) -/

/-- Outcome of one attempt of the wrapped transport operation, as seen by
the `try` block of `retry_operation`: a returned value, a
`telegram.error.RetryAfter` with its advised delay, an
`asyncio.TimeoutError` from `wait_for`, or any other `Exception`
carrying its type name and its `str(e)` message. -/
inductive TransportOutcome where
  | success (v : Nat)
  | rateLimited (retry_after : Nat)
  | timedOut
  | exnFailure (name msg : String)
deriving DecidableEq

/-- How `retry_operation` ends: a returned value, the implicit `None`
return when the loop body never runs, or the bare `raise` in the
`finally` block, which fires with no active exception (the `except`
clause has already completed, or the `try` block was exited by `return`)
and therefore raises `RuntimeError`. -/
inductive RetryResult where
  | returned (v : Nat)
  | returnedNone
  | raisedRuntime
deriving DecidableEq

/-- Observable trace of one `retry_operation` call. -/
structure RetryTrace where
  result : RetryResult
  attemptsMade : Nat
  sleeps : List Nat
  tally : List (String × Nat)
deriving DecidableEq

/-- `retry_errors[key] += 1` on a `defaultdict(int)`, kept in insertion
order. -/
def tallyAdd : List (String × Nat) → String → List (String × Nat)
  | [], k => [(k, 1)]
  | (k0, n) :: rest, k =>
    if k0 = k then (k0, n + 1) :: rest else (k0, n) :: tallyAdd rest k

/-- The `except` key used for an outcome (`none` for success). -/
def errKey : TransportOutcome → Option String
  | .success _ => none
  | .rateLimited _ => some "rate_limit"
  | .timedOut => some "timeout"
  | .exnFailure name _ => some name

/-- The sleep performed by the matching `except` clause of
`retry_operation` for a failing attempt: `err.retry_after * (attempt + 1)`
for a rate limit, `base_delay * (2 ** attempt)` for a timeout or any
other exception (`base_delay = RETRY_DELAY`). -/
def failSleep : TransportOutcome → Nat → Option Nat
  | .success _, _ => none
  | .rateLimited n, attempt => some (n * (attempt + 1))
  | .timedOut, attempt => some (RETRY_DELAY * 2 ^ attempt)
  | .exnFailure _ _, attempt => some (RETRY_DELAY * 2 ^ attempt)

/-- `True` iff the outcome is caught by one of the `except` clauses. -/
def isFailureOutcome : TransportOutcome → Bool
  | .success _ => false
  | _ => true

/-- The `for attempt in range(MAX_RETRIES)` loop of `retry_operation`,
over the remaining attempt indices.  Per iteration: on success the
`finally` clause still runs before the `return`, and if this is the last
attempt and the error tally is non-empty it executes a bare `raise`
(raising `RuntimeError` and discarding the value); on failure the
`except` clause tallies the error kind and sleeps, then the `finally`
clause re-raises on the last attempt. -/
def retryLoop (op : Nat → TransportOutcome) :
    List Nat → Nat → List (String × Nat) → List Nat → RetryTrace
  | [], made, tally, sleeps =>
    { result := .returnedNone, attemptsMade := made, sleeps := sleeps, tally := tally }
  | attempt :: rest, made, tally, sleeps =>
    match op attempt with
    | .success v =>
      if attempt = MAX_RETRIES - 1 ∧ tally ≠ [] then
        { result := .raisedRuntime, attemptsMade := made + 1, sleeps := sleeps, tally := tally }
      else
        { result := .returned v, attemptsMade := made + 1, sleeps := sleeps, tally := tally }
    | o =>
      let tally1 := tallyAdd tally ((errKey o).getD "")
      let sleeps1 := sleeps ++ [(failSleep o attempt).getD 0]
      if attempt = MAX_RETRIES - 1 then
        { result := .raisedRuntime, attemptsMade := made + 1, sleeps := sleeps1, tally := tally1 }
      else
        retryLoop op rest (made + 1) tally1 sleeps1

/-- `MessageForwarder.retry_operation` applied to an operation whose
attempt outcomes are given by `op`. -/
def retry_operation (op : Nat → TransportOutcome) : RetryTrace :=
  retryLoop op (List.range MAX_RETRIES) 0 [] []

/-! ### Inline retry loop of `process_media_group` (lines 198-216) -/

/-- Outcome of one `bot.send_media_group` call in the inline loop: it
either succeeds or raises some `Exception` whose `str(e)` is recorded. -/
inductive BatchOutcome where
  | success
  | failure (msg : String)
deriving DecidableEq

/-- Observable trace of the inline send loop: whether the batch was sent,
how many attempts ran, and the sleeps performed between attempts. -/
structure BatchTrace where
  sent : Bool
  attemptsMade : Nat
  sleeps : List Nat
deriving DecidableEq

/-- Python `"Timed out" in str(e)`. -/
def timedOutIn (msg : String) : Bool :=
  decide (("Timed out".data) <:+: msg.data)

/-- `str(telegram.error.RetryAfter(n))`: the flood-control message, which
does not contain the substring "Timed out". -/
def rateLimitMsg (n : Nat) : String :=
  "Flood control exceeded. Retry in " ++ toString n ++ " seconds"

/-- The `for attempt in range(MAX_RETRIES)` loop around
`bot.send_media_group` in `process_media_group`: on success it breaks;
on failure it sleeps `RETRY_DELAY * (2 ** attempt)` (doubled when
`"Timed out" in str(e)`) only when further attempts remain, and on the
final attempt it merely logs — no exception is re-raised. -/
def batchLoop (op : Nat → BatchOutcome) :
    List Nat → Nat → List Nat → BatchTrace
  | [], made, sleeps => { sent := false, attemptsMade := made, sleeps := sleeps }
  | attempt :: rest, made, sleeps =>
    match op attempt with
    | .success => { sent := true, attemptsMade := made + 1, sleeps := sleeps }
    | .failure msg =>
      if attempt < MAX_RETRIES - 1 then
        let d0 := RETRY_DELAY * 2 ^ attempt
        let d := if timedOutIn msg then d0 * 2 else d0
        batchLoop op rest (made + 1) (sleeps ++ [d])
      else
        { sent := false, attemptsMade := made + 1, sleeps := sleeps }

/-- The inline retry loop of `process_media_group` applied to a batch
send whose attempt outcomes are given by `op`. -/
def send_media_group_retry (op : Nat → BatchOutcome) : BatchTrace :=
  batchLoop op (List.range MAX_RETRIES) 0 []

/-! ### Inbound message model (`telegram.Message`, as used by the code) -/

/-- One entry of `msg.photo` (a `PhotoSize`); the code uses only
`photo[-1].file_id`. -/
structure PhotoSize where
  file_id : String
deriving DecidableEq

/-- `msg.video`, with the fields read by the code. -/
structure Video where
  file_id : String
  duration : Nat
  width : Nat
  height : Nat
deriving DecidableEq

/-- `msg.document`, with the fields read by the code. -/
structure Document where
  file_id : String
  file_name : Option String
deriving DecidableEq

/-- `msg.audio`, with the fields read by the code. -/
structure Audio where
  file_id : String
  duration : Nat
  performer : Option String
  title : Option String
deriving DecidableEq

/-- The fields of a `telegram.Message` read by the forwarding engine.
`date` is the server timestamp (`msg.date.timestamp()`), modelled as a
natural number since only its ordering is used.  `caption_entities` is an
opaque list of formatting entities. -/
structure Message where
  message_id : Nat
  chat_id : Int
  date : Nat
  media_group_id : Option String
  caption : Option String
  caption_entities : Option (List String)
  photo : List PhotoSize
  video : Option Video
  document : Option Document
  audio : Option Audio
  animation : Bool
deriving DecidableEq

/-- Python truthiness of an optional string (`None` and `""` are falsy). -/
def strTruthy : Option String → Bool
  | none => false
  | some s => s ≠ ""

/-- Python truthiness of an optional integer (`None` and `0` are falsy). -/
def intTruthy : Option Int → Bool
  | none => false
  | some n => n ≠ 0

/-- `MessageForwarder.get_media_type`, lines 100-106: the `if` chain over
`msg.photo` / `msg.video` / `msg.document` / `msg.audio`. -/
def get_media_type (msg : Message) : Option String :=
  if msg.photo ≠ [] then some "photo"
  else if msg.video.isSome then some "video"
  else if msg.document.isSome then some "document"
  else if msg.audio.isSome then some "audio"
  else none

/-- The `file_id` extracted by the deduplication loop of
`process_media_group` (lines 141-152): guarded by `get_media_type`, then
the `if`/`elif` chain picking `photo[-1].file_id`, `video.file_id`,
`document.file_id` or `audio.file_id`; the trailing `continue` branch
yields `none`. -/
def dedupFileId (msg : Message) : Option String :=
  match get_media_type msg with
  | none => none
  | some _ =>
    if hp : msg.photo = [] then
      match msg.video with
      | some v => some v.file_id
      | none =>
        match msg.document with
        | some d => some d.file_id
        | none =>
          match msg.audio with
          | some a => some a.file_id
          | none => none
    else
      some (msg.photo.getLast hp).file_id

/-- The duplicate-removal loop of `process_media_group` (lines 137-155):
iterate over the sorted messages, keep a message whose `file_id` has not
been seen, skip messages without a recognized media payload. -/
def dedupGo : List Message → List String → List Message
  | [], _ => []
  | msg :: rest, seen =>
    match dedupFileId msg with
    | none => dedupGo rest seen
    | some fid =>
      if fid ∈ seen then dedupGo rest seen
      else msg :: dedupGo rest (fid :: seen)

/-- `next((msg.caption for msg in unique_messages if msg.caption), None)`
(line 158): the first truthy caption of the deduplicated sequence. -/
def firstTruthyCaption : List Message → Option String
  | [] => none
  | msg :: rest =>
    if strTruthy msg.caption then msg.caption else firstTruthyCaption rest

/-- The sort key of line 128: `(msg.date.timestamp(), msg.message_id)`,
compared lexicographically (tuple comparison in Python). -/
def msgKey (m : Message) : Nat × Nat := (m.date, m.message_id)

/-- Non-strict lexicographic order on the sort key. -/
def msgLe (a b : Message) : Prop :=
  a.date < b.date ∨ (a.date = b.date ∧ a.message_id ≤ b.message_id)

instance : DecidableRel msgLe := fun a b => by
  unfold msgLe; infer_instance

instance : IsTotal Message msgLe where
  total a b := by
    unfold msgLe
    rcases Nat.lt_trichotomy a.date b.date with h | h | h
    · exact Or.inl (Or.inl h)
    · rcases Nat.le_total a.message_id b.message_id with h2 | h2
      · exact Or.inl (Or.inr ⟨h, h2⟩)
      · exact Or.inr (Or.inr ⟨h.symm, h2⟩)
    · exact Or.inr (Or.inl h)

instance : IsTrans Message msgLe where
  trans a b c hab hbc := by
    unfold msgLe at *
    rcases hab with h1 | ⟨h1, h2⟩ <;> rcases hbc with h3 | ⟨h3, h4⟩
    · exact Or.inl (h1.trans h3)
    · exact Or.inl (h3 ▸ h1)
    · exact Or.inl (h1 ▸ h3)
    · exact Or.inr ⟨h1.trans h3, h2.trans h4⟩

/-- `messages.sort(key=lambda msg: (msg.date.timestamp(), msg.message_id))`
(line 128): a stable sort by the lexicographic key; modelled by stable
insertion sort, which has the same input/output contract as Python
`list.sort` (stable, sorted by the key). -/
def sortMessages (l : List Message) : List Message :=
  List.insertionSort msgLe l

/-- `sorted` then `unique_messages` of `process_media_group`. -/
def uniqueMessages (msgs : List Message) : List Message :=
  dedupGo (sortMessages msgs) []

/-- One output item of the canonicalizer: the `InputMedia…` constructor
calls of lines 166-196, with the kind-specific fields that are absent for
a kind set to `none`. -/
structure InputMedia where
  kind : String
  media : String
  caption : Option String
  caption_entities : Option (List String)
  duration : Option Nat
  width : Option Nat
  height : Option Nat
  filename : Option String
  performer : Option String
  title : Option String
deriving DecidableEq

/-- One iteration of the materialization loop (lines 162-196):
`caption = group_caption if i == 0 else None`, then the `if`/`elif`
chain building the `InputMedia…` record, passing
`caption_entities=msg.caption_entities if caption else None`;
a message matching no branch appends nothing. -/
def mkInputMedia (gc : Option String) (i : Nat) (msg : Message) : Option InputMedia :=
  let caption := if i = 0 then gc else none
  let ents := if strTruthy caption then msg.caption_entities else none
  if hp : msg.photo = [] then
    match msg.video with
    | some v =>
      some { kind := "video", media := v.file_id, caption := caption,
             caption_entities := ents, duration := some v.duration, width := some v.width,
             height := some v.height, filename := none, performer := none, title := none }
    | none =>
      match msg.document with
      | some d =>
        some { kind := "document", media := d.file_id, caption := caption,
               caption_entities := ents, duration := none, width := none, height := none,
               filename := d.file_name, performer := none, title := none }
      | none =>
        match msg.audio with
        | some a =>
          some { kind := "audio", media := a.file_id, caption := caption,
                 caption_entities := ents, duration := some a.duration, width := none,
                 height := none, filename := none, performer := a.performer, title := a.title }
        | none => none
  else
    some { kind := "photo", media := (msg.photo.getLast hp).file_id, caption := caption,
           caption_entities := ents, duration := none, width := none, height := none,
           filename := none, performer := none, title := none }

/-- The `for i, msg in enumerate(unique_messages)` materialization loop:
the enumerate index advances on every message, an item is appended only
when a media branch matches. -/
def materializeGo (gc : Option String) : Nat → List Message → List InputMedia
  | _, [] => []
  | i, msg :: rest =>
    match mkInputMedia gc i msg with
    | some im => im :: materializeGo gc (i + 1) rest
    | none => materializeGo gc (i + 1) rest

/-- The full canonicalization pipeline of `process_media_group`
(lines 127-196): sort, deduplicate, pick the group caption,
materialize. -/
def canonicalBatch (msgs : List Message) : List InputMedia :=
  materializeGo (firstTruthyCaption (uniqueMessages msgs)) 0 (uniqueMessages msgs)

/-- `MessageForwarder.get_media_input` (lines 64-98), used by the single
message path: same `if`/`elif` chain, caption taken verbatim from the
message, no `caption_entities` argument. -/
def get_media_input (msg : Message) : Option InputMedia :=
  if hp : msg.photo = [] then
    match msg.video with
    | some v =>
      some { kind := "video", media := v.file_id, caption := msg.caption,
             caption_entities := none, duration := some v.duration, width := some v.width,
             height := some v.height, filename := none, performer := none, title := none }
    | none =>
      match msg.document with
      | some d =>
        some { kind := "document", media := d.file_id, caption := msg.caption,
               caption_entities := none, duration := none, width := none, height := none,
               filename := d.file_name, performer := none, title := none }
      | none =>
        match msg.audio with
        | some a =>
          some { kind := "audio", media := a.file_id, caption := msg.caption,
                 caption_entities := none, duration := some a.duration, width := none,
                 height := none, filename := none, performer := a.performer, title := a.title }
        | none => none
  else
    some { kind := "photo", media := (msg.photo.getLast hp).file_id, caption := msg.caption,
           caption_entities := none, duration := none, width := none, height := none,
           filename := none, performer := none, title := none }

/-! ### Group Aggregator and Dispatch Router state
(`MessageForwarder.__init__`, `process_media_group`, `forward_message`) -/

/-- Lookup in an association list (Python `dict` access / `in`). -/
def alistGet {α : Type} (l : List (String × α)) (k : String) : Option α :=
  match l with
  | [] => none
  | (k0, v) :: rest => if k0 = k then some v else alistGet rest k

/-- `defaultdict` update: apply `f` to the stored value (or to the
default `dflt` when the key is absent, inserting it). -/
def alistUpd {α : Type} (l : List (String × α)) (k : String) (dflt : α) (f : α → α) :
    List (String × α) :=
  match l with
  | [] => [(k, f dflt)]
  | (k0, v) :: rest =>
    if k0 = k then (k0, f v) :: rest else (k0, v) :: alistUpd rest k dflt f

/-- `dict.pop(k, default)`: remove the key.  (A Python dict has unique
keys; removing every association with the key keeps the model faithful
on any association list.) -/
def alistErase {α : Type} (l : List (String × α)) (k : String) : List (String × α) :=
  l.filter (fun p => p.1 ≠ k)

/-- `set.add`. -/
def setAdd (s : List String) (k : String) : List String :=
  if k ∈ s then s else k :: s

/-- `set.discard`. -/
def setDiscard (s : List String) (k : String) : List String :=
  s.filter (fun x => x ≠ k)

/-- A transport call initiated by the engine. -/
inductive Action where
  /-- `bot.send_media_group(chat_id=destination, media=…)` -/
  | sendMediaGroup (media : List InputMedia)
  /-- `bot.copy_message(chat_id=destination, …, message_id=…)` -/
  | copyMessage (message_id : Nat)
deriving DecidableEq

/-- The mutable state of a `MessageForwarder` instance plus the named
one-shot jobs pending in the job queue (job names are group ids), and
the configuration it reads. -/
structure ForwarderState where
  media_groups : List (String × List Message)
  media_group_counts : List (String × Nat)
  scheduled_media_groups : List String
  jobs : List String
  source_id : Option Int
  destination_id : Option Int
deriving DecidableEq

/-- `MessageForwarder.process_media_group` (lines 108-216) for a known
group id: pop the buffered messages, discard the scheduled mark, pop the
count — all before any transport call — then, if the buffer was
non-empty and canonicalization produced items, start the batch send.
The returned actions are the transport calls issued after the state
update. -/
def process_media_group (st : ForwarderState) (gid : String) :
    ForwarderState × List Action :=
  let messages := (alistGet st.media_groups gid).getD []
  let st1 : ForwarderState :=
    { st with media_groups := alistErase st.media_groups gid,
              scheduled_media_groups := setDiscard st.scheduled_media_groups gid,
              media_group_counts := alistErase st.media_group_counts gid }
  if messages = [] then (st1, [])
  else
    let media := canonicalBatch messages
    if media = [] then (st1, []) else (st1, [Action.sendMediaGroup media])

/-- `MessageForwarder.forward_single_message` (lines 218-251): media
messages (including animations) are first tried as a one-item media
group; when `get_media_input` returns `None` (animation) or the message
has no media, `copy_message` is used.  Transport failures are caught and
logged, so the state is never changed. -/
def forward_single_message (msg : Message) : List Action :=
  if msg.photo ≠ [] ∨ msg.video.isSome ∨ msg.document.isSome ∨ msg.audio.isSome ∨
      msg.animation then
    match get_media_input msg with
    | some im => [Action.sendMediaGroup [im]]
    | none => [Action.copyMessage msg.message_id]
  else
    [Action.copyMessage msg.message_id]

/-- The media-group branch of `forward_message` (lines 278-303): append
the message, increment the count, cancel pending jobs for the group if
one is scheduled, then either flush immediately when the count reached
`MAX_MEDIA_GROUP_SIZE`, or mark the group scheduled and enqueue a fresh
debounce job. -/
def groupStep (st : ForwarderState) (msg : Message) (gid : String) :
    ForwarderState × List Action :=
  let groups1 := alistUpd st.media_groups gid [] (fun l => l ++ [msg])
  let counts1 := alistUpd st.media_group_counts gid 0 (fun n => n + 1)
  let jobs1 :=
    if gid ∈ st.scheduled_media_groups then st.jobs.filter (fun x => x ≠ gid)
    else st.jobs
  let st1 : ForwarderState :=
    { st with media_groups := groups1, media_group_counts := counts1, jobs := jobs1 }
  if MAX_MEDIA_GROUP_SIZE ≤ (alistGet counts1 gid).getD 0 then
    process_media_group st1 gid
  else
    ({ st1 with scheduled_media_groups := setAdd st1.scheduled_media_groups gid,
                jobs := st1.jobs ++ [gid] }, [])

/-- `MessageForwarder.forward_message` (lines 253-306): the source-chat
check, the destination truthiness check, the `validate_config` guard
(every validation failure is a `ValueError`, caught and logged), then the
branch on the truthiness of `media_group_id`. -/
def forward_message (st : ForwarderState) (msg : Message) :
    ForwarderState × List Action :=
  if some msg.chat_id ≠ st.source_id then (st, [])
  else if !intTruthy st.destination_id then (st, [])
  else if !validOk { source_id := st.source_id, destination_id := st.destination_id } then
    (st, [])
  else
    match msg.media_group_id with
    | some gid =>
      if gid = "" then (st, forward_single_message msg)
      else groupStep st msg gid
    | none => (st, forward_single_message msg)

/-- The events the single-threaded worker processes: an inbound update,
or a debounce timer firing (the job queue removes the fired one-shot job
and runs `process_media_group` with the group id as job data). -/
inductive Event where
  | inbound (msg : Message)
  | timerFire (gid : String)

/-- One step of the worker. -/
def stepEvent (st : ForwarderState) : Event → ForwarderState × List Action
  | .inbound msg => forward_message st msg
  | .timerFire gid =>
    process_media_group { st with jobs := st.jobs.filter (fun x => x ≠ gid) } gid

/-- The Pending Group invariant: a group id is in the buffer iff it is
marked scheduled, and iff it has a recorded count. -/
def groupInv (st : ForwarderState) : Prop :=
  ∀ gid : String,
    ((alistGet st.media_groups gid).isSome ↔ gid ∈ st.scheduled_media_groups) ∧
    ((alistGet st.media_groups gid).isSome ↔ (alistGet st.media_group_counts gid).isSome)

/-! ### Lemmas about the retry loops -/

theorem retry_operation_def (op : Nat → TransportOutcome) :
    retry_operation op = retryLoop op [0, 1, 2] 0 [] [] := rfl

theorem send_media_group_retry_def (bop : Nat → BatchOutcome) :
    send_media_group_retry bop = batchLoop bop [0, 1, 2] 0 [] := rfl

theorem retryLoop_failStep (op : Nat → TransportOutcome) (attempt : Nat) (rest : List Nat)
    (made : Nat) (tally : List (String × Nat)) (sleeps : List Nat)
    (hf : isFailureOutcome (op attempt) = true) (hlast : ¬ attempt = MAX_RETRIES - 1) :
    retryLoop op (attempt :: rest) made tally sleeps =
      retryLoop op rest (made + 1) (tallyAdd tally ((errKey (op attempt)).getD ""))
        (sleeps ++ [(failSleep (op attempt) attempt).getD 0]) := by
  cases hop : op attempt
  case success v =>
    rw [hop] at hf
    exact absurd hf (by simp [isFailureOutcome])
  all_goals simp [retryLoop, hop, hlast, errKey, failSleep]

theorem retryLoop_failLast (op : Nat → TransportOutcome) (attempt : Nat) (rest : List Nat)
    (made : Nat) (tally : List (String × Nat)) (sleeps : List Nat)
    (hf : isFailureOutcome (op attempt) = true) (hlast : attempt = MAX_RETRIES - 1) :
    retryLoop op (attempt :: rest) made tally sleeps =
      { result := RetryResult.raisedRuntime, attemptsMade := made + 1,
        sleeps := sleeps ++ [(failSleep (op attempt) attempt).getD 0],
        tally := tallyAdd tally ((errKey (op attempt)).getD "") } := by
  subst hlast
  cases hop : op (MAX_RETRIES - 1)
  case success v =>
    rw [hop] at hf
    exact absurd hf (by simp [isFailureOutcome])
  all_goals simp [retryLoop, hop, errKey, failSleep]

theorem retryLoop_sleeps_prefix (op : Nat → TransportOutcome) :
    ∀ (idxs : List Nat) (made : Nat) (tally : List (String × Nat)) (sleeps : List Nat),
      ∃ t, (retryLoop op idxs made tally sleeps).sleeps = sleeps ++ t := by
  intro idxs
  induction idxs with
  | nil =>
    intro made tally sleeps
    exact ⟨[], by simp [retryLoop]⟩
  | cons attempt rest ih =>
    intro made tally sleeps
    cases hop : op attempt
    case success v =>
      refine ⟨[], ?_⟩
      simp only [retryLoop, hop]
      split_ifs <;> simp
    all_goals
      simp only [retryLoop, hop]
      split_ifs
      · exact ⟨_, rfl⟩
      · obtain ⟨t, ht⟩ := ih (made + 1) _ _
        rw [List.append_assoc] at ht
        exact ⟨_, ht⟩

theorem batchLoop_failStep (bop : Nat → BatchOutcome) (attempt : Nat) (rest : List Nat)
    (made : Nat) (sleeps : List Nat) (m : String)
    (hf : bop attempt = BatchOutcome.failure m) (hlast : attempt < MAX_RETRIES - 1) :
    batchLoop bop (attempt :: rest) made sleeps =
      batchLoop bop rest (made + 1)
        (sleeps ++ [if timedOutIn m then RETRY_DELAY * 2 ^ attempt * 2
                    else RETRY_DELAY * 2 ^ attempt]) := by
  simp only [batchLoop, hf, if_pos hlast]

theorem batchLoop_failLast (bop : Nat → BatchOutcome) (attempt : Nat) (rest : List Nat)
    (made : Nat) (sleeps : List Nat) (m : String)
    (hf : bop attempt = BatchOutcome.failure m) (hlast : ¬ attempt < MAX_RETRIES - 1) :
    batchLoop bop (attempt :: rest) made sleeps =
      { sent := false, attemptsMade := made + 1, sleeps := sleeps } := by
  simp only [batchLoop, hf, if_neg hlast]

theorem batchLoop_sleeps_prefix (bop : Nat → BatchOutcome) :
    ∀ (idxs : List Nat) (made : Nat) (sleeps : List Nat),
      ∃ t, (batchLoop bop idxs made sleeps).sleeps = sleeps ++ t := by
  intro idxs
  induction idxs with
  | nil =>
    intro made sleeps
    exact ⟨[], by simp [batchLoop]⟩
  | cons attempt rest ih =>
    intro made sleeps
    cases hop : bop attempt
    case success =>
      exact ⟨[], by simp [batchLoop, hop]⟩
    case failure m =>
      by_cases hlast : attempt < MAX_RETRIES - 1
      · rw [batchLoop_failStep bop attempt rest made sleeps m hop hlast]
        obtain ⟨t, ht⟩ := ih (made + 1) _
        rw [List.append_assoc] at ht
        exact ⟨_, ht⟩
      · exact ⟨[], by rw [batchLoop_failLast bop attempt rest made sleeps m hop hlast]; simp⟩

/-! ### Claim theorems: Retry Executor -/

/-- C1 (code bug, evaluated at the failing input): wrapping an operation
that fails the first two attempts and succeeds on the final attempt,
`retry_operation` does not return the successful result: the `finally`
clause sees the last attempt index with a non-empty error tally and runs
a bare `raise` after the `try` block was exited by `return`, so the call
raises `RuntimeError` instead of returning the value.  In addition, the
media-group batch path exhausts its three attempts without raising at
all (exhaustion is only logged). -/
theorem retry_finalAttemptSuccess_raises :
    (retry_operation (fun i => if i < 2 then TransportOutcome.timedOut
        else TransportOutcome.success 7)).result = RetryResult.raisedRuntime ∧
    (retry_operation (fun i => if i < 2 then TransportOutcome.timedOut
        else TransportOutcome.success 7)).result ≠ RetryResult.returned 7 ∧
    (retry_operation (fun i => if i < 2 then TransportOutcome.timedOut
        else TransportOutcome.success 7)).attemptsMade = 3 ∧
    (send_media_group_retry (fun _ => BatchOutcome.failure "network down")).sent = false ∧
    (send_media_group_retry (fun _ => BatchOutcome.failure "network down")).attemptsMade = 3 := by
  decide

/-- C3 counterexample: on the media-group batch path, a transport
rate-limit failure advising a 5-second delay at attempts 0 and 1 is
followed by the generic exponential sleeps `[1, 2]`, not the rate-limit
sleeps `[5 * 1, 5 * 2]` that the claim asserts for this path. -/
theorem batch_rateLimit_generic_backoff :
    (send_media_group_retry (fun _ => BatchOutcome.failure (rateLimitMsg 5))).sleeps = [1, 2] ∧
    [1, 2] ≠ [5 * (0 + 1), 5 * (1 + 1)] := by
  decide

/-- C3 (amended): inside `retry_operation` a rate-limit failure at
attempt `i` advising `N` seconds is followed by a sleep of
`N * (i + 1)`; the media-group batch send does not go through
`retry_operation` — its inline loop sleeps the generic
`RETRY_DELAY * 2 ^ i` (doubled only when the failure message contains
"Timed out"), whatever the failure is, including a rate-limit signal. -/
theorem rateLimit_backoff_policy :
    (∀ (op : Nat → TransportOutcome) (i N : Nat), i < MAX_RETRIES →
       (∀ j, j < i → isFailureOutcome (op j) = true) →
       op i = TransportOutcome.rateLimited N →
       (retry_operation op).sleeps.get? i = some (N * (i + 1)))
  ∧ (∀ (bop : Nat → BatchOutcome) (i : Nat) (m : String), i < MAX_RETRIES - 1 →
       (∀ j, j < i → bop j ≠ BatchOutcome.success) →
       bop i = BatchOutcome.failure m →
       (send_media_group_retry bop).sleeps.get? i =
         some (if timedOutIn m then RETRY_DELAY * 2 ^ i * 2 else RETRY_DELAY * 2 ^ i)) := by
  constructor
  · intro op i N hi hprev hrl
    have hfi : isFailureOutcome (op i) = true := by rw [hrl]; rfl
    have hi3 : i < 3 := hi
    interval_cases i
    · rw [retry_operation_def,
        retryLoop_failStep op 0 [1, 2] 0 [] [] hfi (by decide), hrl]
      obtain ⟨t, ht⟩ := retryLoop_sleeps_prefix op [1, 2] 1 _ _
      rw [ht]
      simp [failSleep]
    · have h0 := hprev 0 (by omega)
      rw [retry_operation_def,
        retryLoop_failStep op 0 [1, 2] 0 [] [] h0 (by decide),
        retryLoop_failStep op 1 [2] 1 _ _ hfi (by decide), hrl]
      obtain ⟨t, ht⟩ := retryLoop_sleeps_prefix op [2] 2 _ _
      rw [ht]
      simp [failSleep]
    · have h0 := hprev 0 (by omega)
      have h1 := hprev 1 (by omega)
      rw [retry_operation_def,
        retryLoop_failStep op 0 [1, 2] 0 [] [] h0 (by decide),
        retryLoop_failStep op 1 [2] 1 _ _ h1 (by decide),
        retryLoop_failLast op 2 [] 2 _ _ hfi (by decide), hrl]
      simp [failSleep]
  · intro bop i m hi hprev hf
    have hi2 : i < 2 := hi
    interval_cases i
    · rw [send_media_group_retry_def,
        batchLoop_failStep bop 0 [1, 2] 0 [] m hf (by decide)]
      obtain ⟨t, ht⟩ := batchLoop_sleeps_prefix bop [1, 2] 1 _
      rw [ht]
      simp
    · have h0 := hprev 0 (by omega)
      cases hop0 : bop 0
      · exact absurd hop0 h0
      case failure m0 =>
        rw [send_media_group_retry_def,
          batchLoop_failStep bop 0 [1, 2] 0 [] m0 hop0 (by decide),
          batchLoop_failStep bop 1 [2] 1 _ m hf (by decide)]
        obtain ⟨t, ht⟩ := batchLoop_sleeps_prefix bop [2] 2 _
        rw [ht]
        simp

/-- C3 (amended) witness: a concrete rate-limited first attempt inside
`retry_operation` sleeps `7 * 1`, and a concrete rate-limited first
attempt of the batch loop sleeps the generic `1`. -/
theorem rateLimit_backoff_policy_witness :
    (retry_operation (fun _ => TransportOutcome.rateLimited 7)).sleeps.get? 0 = some (7 * (0 + 1)) ∧
    (send_media_group_retry (fun _ => BatchOutcome.failure (rateLimitMsg 7))).sleeps.get? 0 =
      some (if timedOutIn (rateLimitMsg 7) then RETRY_DELAY * 2 ^ 0 * 2 else RETRY_DELAY * 2 ^ 0) :=
  ⟨rateLimit_backoff_policy.1 (fun _ => TransportOutcome.rateLimited 7) 0 7 (by decide)
      (fun j hj => absurd hj (by omega)) rfl,
   rateLimit_backoff_policy.2 (fun _ => BatchOutcome.failure (rateLimitMsg 7)) 0 (rateLimitMsg 7)
      (by decide) (fun j hj => absurd hj (by omega)) rfl⟩

/-- C4 counterexample: `retry_operation` against an operation whose
failure message indicates a timeout on every attempt sleeps the plain
exponential `[1, 2, 4]`; the claimed extra doubling for timeout messages
would give `[2, 4, 8]`.  (That doubling exists only in the inline
media-group loop, which in turn never fails terminally.) -/
theorem retry_no_timeout_doubling :
    (retry_operation (fun _ => TransportOutcome.exnFailure "TimedOut" "Timed out")).sleeps
        = [1, 2, 4] ∧
    [1, 2, 4] ≠ [RETRY_DELAY * 2 ^ 0 * 2, RETRY_DELAY * 2 ^ 1 * 2, RETRY_DELAY * 2 ^ 2 * 2] := by
  decide

/-- C4 (amended): against an always-failing generic transport failure,
`retry_operation` makes exactly `MAX_RETRIES = 3` attempts with sleeps
`RETRY_DELAY * 2 ^ i` after each failed attempt (no extra doubling for
timeout messages) and then raises; the inline media-group loop makes
exactly 3 attempts with sleeps `RETRY_DELAY * 2 ^ i` between attempts,
doubled when the failure message contains "Timed out", and exhausts
without raising (`sent = false`, the failure is only logged). -/
theorem retry_budget_generic_failure (op : Nat → TransportOutcome)
    (bop bopT : Nat → BatchOutcome)
    (h : ∀ i, i < MAX_RETRIES → ∃ name msg, op i = TransportOutcome.exnFailure name msg)
    (hb : ∀ i, i < MAX_RETRIES → ∃ msg, bop i = BatchOutcome.failure msg ∧ timedOutIn msg = false)
    (hbT : ∀ i, i < MAX_RETRIES → ∃ msg, bopT i = BatchOutcome.failure msg ∧ timedOutIn msg = true) :
    ((retry_operation op).attemptsMade = MAX_RETRIES ∧
     (retry_operation op).result = RetryResult.raisedRuntime ∧
     (retry_operation op).sleeps = [RETRY_DELAY * 2 ^ 0, RETRY_DELAY * 2 ^ 1, RETRY_DELAY * 2 ^ 2]) ∧
    ((send_media_group_retry bop).attemptsMade = MAX_RETRIES ∧
     (send_media_group_retry bop).sent = false ∧
     (send_media_group_retry bop).sleeps = [RETRY_DELAY * 2 ^ 0, RETRY_DELAY * 2 ^ 1]) ∧
    ((send_media_group_retry bopT).attemptsMade = MAX_RETRIES ∧
     (send_media_group_retry bopT).sent = false ∧
     (send_media_group_retry bopT).sleeps = [RETRY_DELAY * 2 ^ 0 * 2, RETRY_DELAY * 2 ^ 1 * 2]) := by
  obtain ⟨n0, m0, h0⟩ := h 0 (by decide)
  obtain ⟨n1, m1, h1⟩ := h 1 (by decide)
  obtain ⟨n2, m2, h2⟩ := h 2 (by decide)
  obtain ⟨b0, hb0, ht0⟩ := hb 0 (by decide)
  obtain ⟨b1, hb1, ht1⟩ := hb 1 (by decide)
  obtain ⟨b2, hb2, ht2⟩ := hb 2 (by decide)
  obtain ⟨c0, hc0, hs0⟩ := hbT 0 (by decide)
  obtain ⟨c1, hc1, hs1⟩ := hbT 1 (by decide)
  obtain ⟨c2, hc2, hs2⟩ := hbT 2 (by decide)
  have hf0 : isFailureOutcome (op 0) = true := by rw [h0]; rfl
  have hf1 : isFailureOutcome (op 1) = true := by rw [h1]; rfl
  have hf2 : isFailureOutcome (op 2) = true := by rw [h2]; rfl
  refine ⟨?_, ?_, ?_⟩
  · rw [retry_operation_def,
      retryLoop_failStep op 0 [1, 2] 0 [] [] hf0 (by decide),
      retryLoop_failStep op 1 [2] 1 _ _ hf1 (by decide),
      retryLoop_failLast op 2 [] 2 _ _ hf2 (by decide), h0, h1, h2]
    simp [failSleep, MAX_RETRIES]
  · rw [send_media_group_retry_def,
      batchLoop_failStep bop 0 [1, 2] 0 [] b0 hb0 (by decide),
      batchLoop_failStep bop 1 [2] 1 _ b1 hb1 (by decide),
      batchLoop_failLast bop 2 [] 2 _ b2 hb2 (by decide)]
    simp [ht0, ht1, MAX_RETRIES]
  · rw [send_media_group_retry_def,
      batchLoop_failStep bopT 0 [1, 2] 0 [] c0 hc0 (by decide),
      batchLoop_failStep bopT 1 [2] 1 _ c1 hc1 (by decide),
      batchLoop_failLast bopT 2 [] 2 _ c2 hc2 (by decide)]
    simp [hs0, hs1, MAX_RETRIES]

/-- C4 (amended) witness: the amended budget/backoff behaviour at
concrete always-failing operations. -/
theorem retry_budget_generic_failure_witness :
    ((retry_operation (fun _ => TransportOutcome.exnFailure "NetworkError" "boom")).attemptsMade
        = MAX_RETRIES ∧
     (retry_operation (fun _ => TransportOutcome.exnFailure "NetworkError" "boom")).result
        = RetryResult.raisedRuntime ∧
     (retry_operation (fun _ => TransportOutcome.exnFailure "NetworkError" "boom")).sleeps
        = [RETRY_DELAY * 2 ^ 0, RETRY_DELAY * 2 ^ 1, RETRY_DELAY * 2 ^ 2]) ∧
    ((send_media_group_retry (fun _ => BatchOutcome.failure "boom")).attemptsMade = MAX_RETRIES ∧
     (send_media_group_retry (fun _ => BatchOutcome.failure "boom")).sent = false ∧
     (send_media_group_retry (fun _ => BatchOutcome.failure "boom")).sleeps
        = [RETRY_DELAY * 2 ^ 0, RETRY_DELAY * 2 ^ 1]) ∧
    ((send_media_group_retry (fun _ => BatchOutcome.failure "Timed out")).attemptsMade
        = MAX_RETRIES ∧
     (send_media_group_retry (fun _ => BatchOutcome.failure "Timed out")).sent = false ∧
     (send_media_group_retry (fun _ => BatchOutcome.failure "Timed out")).sleeps
        = [RETRY_DELAY * 2 ^ 0 * 2, RETRY_DELAY * 2 ^ 1 * 2]) :=
  retry_budget_generic_failure (fun _ => TransportOutcome.exnFailure "NetworkError" "boom")
    (fun _ => BatchOutcome.failure "boom") (fun _ => BatchOutcome.failure "Timed out")
    (fun _ _ => ⟨"NetworkError", "boom", rfl⟩)
    (fun _ _ => ⟨"boom", rfl, by decide⟩)
    (fun _ _ => ⟨"Timed out", rfl, by decide⟩)

/-! ### Claim theorems: Config Gate -/

/-- C2 counterexample: with the source unset and a well-formed negative
destination, `validate_config` reports the malformed-source reason
("Invalid source channel ID format"), not the `MissingSource` reason the
claim requires (the code has no missing-identifier reasons at all, as
`validate_specModel` of the claimed behaviour shows at the same input). -/
theorem validate_unsetSource_reports_malformed :
    validate_config { source_id := none, destination_id := some (-100) } =
      Except.error ConfigErrorReason.malformedSource ∧
    validate_specModel { source_id := none, destination_id := some (-100) } =
      Except.error SpecConfigReason.missingSource := by
  exact ⟨rfl, rfl⟩

/-- C2 (amended): `validate_config` succeeds exactly when both
identifiers are set, distinct, and negative integers; otherwise it fails
with the first matching reason in check order: `SourceEqualsDestination`
whenever the two stored values are equal (this includes both being unset,
since `None == None`), else the malformed-source reason when the source
is not a set negative integer (this is also how an unset source is
reported), else the malformed-destination reason.  No distinct
missing-identifier reasons exist. -/
theorem validate_config_characterization (c : Config) :
    (validate_config c = Except.ok () ↔
      c.source_id ≠ c.destination_id ∧ isNegInt c.source_id = true ∧
        isNegInt c.destination_id = true) ∧
    (c.source_id = c.destination_id →
      validate_config c = Except.error ConfigErrorReason.sourceEqualsDestination) ∧
    (c.source_id ≠ c.destination_id → isNegInt c.source_id = false →
      validate_config c = Except.error ConfigErrorReason.malformedSource) ∧
    (c.source_id ≠ c.destination_id → isNegInt c.source_id = true →
      isNegInt c.destination_id = false →
      validate_config c = Except.error ConfigErrorReason.malformedDestination) := by
  unfold validate_config
  refine ⟨?_, ?_, ?_, ?_⟩ <;> split_ifs <;> simp_all

/-- C2 (amended) witness: both directions at concrete configurations:
a valid pair passes, an unset source is reported as malformed, equal
identifiers (and two unset identifiers) as source-equals-destination,
and a non-negative destination as malformed. -/
theorem validate_config_characterization_witness :
    validate_config { source_id := some (-1), destination_id := some (-2) } = Except.ok () ∧
    validate_config { source_id := none, destination_id := some (-2) } =
      Except.error ConfigErrorReason.malformedSource ∧
    validate_config { source_id := none, destination_id := none } =
      Except.error ConfigErrorReason.sourceEqualsDestination ∧
    validate_config { source_id := some (-1), destination_id := some 7 } =
      Except.error ConfigErrorReason.malformedDestination :=
  ⟨(validate_config_characterization _).1.mpr (by refine ⟨by decide, by decide, by decide⟩),
   (validate_config_characterization _).2.2.1 (by decide) (by decide),
   (validate_config_characterization _).2.1 (by decide),
   (validate_config_characterization _).2.2.2 (by decide) (by decide) (by decide)⟩

/-! ### Lemmas about sorting -/

theorem sortMessages_perm (l : List Message) : List.Perm (sortMessages l) l :=
  List.perm_insertionSort msgLe l

theorem sortMessages_sorted (l : List Message) : List.Sorted msgLe (sortMessages l) :=
  List.sorted_insertionSort msgLe l

/-- The strict version of the sort key order: both related and with
distinct keys. -/
def msgLt (a b : Message) : Prop := msgLe a b ∧ msgKey a ≠ msgKey b

theorem msgLe_antisymm_key {a b : Message} (hab : msgLe a b) (hba : msgLe b a) :
    msgKey a = msgKey b := by
  have h : a.date = b.date ∧ a.message_id = b.message_id := by
    rcases hab with h1 | ⟨h1, h2⟩ <;> rcases hba with h3 | ⟨h3, h4⟩ <;> omega
  simp [msgKey, Prod.ext_iff, h.1, h.2]

instance : IsAntisymm Message msgLt where
  antisymm a b hab hba := absurd (msgLe_antisymm_key hab.1 hba.1) hab.2

/-! ### Lemmas about deduplication -/

theorem dedupGo_cons_none {x : Message} (rest : List Message) (seen : List String)
    (h : dedupFileId x = none) : dedupGo (x :: rest) seen = dedupGo rest seen := by
  simp [dedupGo, h]

theorem dedupGo_cons_mem {x : Message} {fid : String} (rest : List Message) (seen : List String)
    (h : dedupFileId x = some fid) (hm : fid ∈ seen) :
    dedupGo (x :: rest) seen = dedupGo rest seen := by
  simp [dedupGo, h, hm]

theorem dedupGo_cons_new {x : Message} {fid : String} (rest : List Message) (seen : List String)
    (h : dedupFileId x = some fid) (hm : fid ∉ seen) :
    dedupGo (x :: rest) seen = x :: dedupGo rest (fid :: seen) := by
  simp [dedupGo, h, hm]

theorem dedupGo_sublist : ∀ (l : List Message) (seen : List String),
    (dedupGo l seen).Sublist l
  | [], _ => List.Sublist.refl []
  | m :: rest, seen => by
    cases h : dedupFileId m
    · rw [dedupGo_cons_none rest seen h]
      exact (dedupGo_sublist rest seen).cons m
    case some fid =>
      by_cases hm : fid ∈ seen
      · rw [dedupGo_cons_mem rest seen h hm]
        exact (dedupGo_sublist rest seen).cons m
      · rw [dedupGo_cons_new rest seen h hm]
        exact (dedupGo_sublist rest (fid :: seen)).cons₂ m

theorem mem_dedupGo_isSome : ∀ (l : List Message) (seen : List String) (m : Message),
    m ∈ dedupGo l seen → (dedupFileId m).isSome = true
  | [], _, m => by simp [dedupGo]
  | x :: rest, seen, m => by
    cases h : dedupFileId x
    · rw [dedupGo_cons_none rest seen h]
      exact mem_dedupGo_isSome rest seen m
    case some fid =>
      by_cases hm : fid ∈ seen
      · rw [dedupGo_cons_mem rest seen h hm]
        exact mem_dedupGo_isSome rest seen m
      · rw [dedupGo_cons_new rest seen h hm]
        intro hmem
        rcases List.mem_cons.mp hmem with hx | hx
        · rw [hx, h]; rfl
        · exact mem_dedupGo_isSome rest (fid :: seen) m hx

theorem dedupGo_tokens : ∀ (l : List Message) (seen : List String),
    ((dedupGo l seen).filterMap dedupFileId).Nodup ∧
    ∀ fid ∈ (dedupGo l seen).filterMap dedupFileId, fid ∉ seen
  | [], seen => by simp [dedupGo]
  | x :: rest, seen => by
    cases h : dedupFileId x
    · rw [dedupGo_cons_none rest seen h]
      exact dedupGo_tokens rest seen
    case some fid =>
      by_cases hm : fid ∈ seen
      · rw [dedupGo_cons_mem rest seen h hm]
        exact dedupGo_tokens rest seen
      · rw [dedupGo_cons_new rest seen h hm]
        obtain ⟨hnd, hdis⟩ := dedupGo_tokens rest (fid :: seen)
        rw [List.filterMap_cons_some h]
        constructor
        · exact List.nodup_cons.mpr
            ⟨fun hmem => (hdis fid hmem) (List.mem_cons_self fid seen), hnd⟩
        · intro t ht
          rcases List.mem_cons.mp ht with h1 | h1
          · rwa [h1]
          · exact fun hc => (hdis t h1) (List.mem_cons_of_mem fid hc)

theorem tokens_mem_dedupGo : ∀ (l : List Message) (seen : List String) (fid : String),
    fid ∈ l.filterMap dedupFileId → fid ∉ seen →
    fid ∈ (dedupGo l seen).filterMap dedupFileId
  | [], seen, fid => by simp
  | x :: rest, seen, fid => by
    cases h : dedupFileId x
    · rw [List.filterMap_cons_none h, dedupGo_cons_none rest seen h]
      exact tokens_mem_dedupGo rest seen fid
    case some t =>
      rw [List.filterMap_cons_some h]
      intro hmem hns
      rcases List.mem_cons.mp hmem with h1 | h1
      · subst h1
        rw [dedupGo_cons_new rest seen h hns, List.filterMap_cons_some h]
        exact List.mem_cons_self _ _
      · by_cases hm : t ∈ seen
        · rw [dedupGo_cons_mem rest seen h hm]
          exact tokens_mem_dedupGo rest seen fid h1 hns
        · rw [dedupGo_cons_new rest seen h hm, List.filterMap_cons_some h]
          by_cases hft : fid = t
          · subst hft
            exact List.mem_cons_self _ _
          · refine List.mem_cons_of_mem _ (tokens_mem_dedupGo rest (t :: seen) fid h1 ?_)
            intro hc
            rcases List.mem_cons.mp hc with h2 | h2
            · exact hft h2
            · exact hns h2

theorem tokens_dedupGo_subset (l : List Message) (seen : List String) (fid : String)
    (h : fid ∈ (dedupGo l seen).filterMap dedupFileId) : fid ∈ l.filterMap dedupFileId := by
  obtain ⟨m, hm, hfid⟩ := List.mem_filterMap.mp h
  exact List.mem_filterMap.mpr ⟨m, (dedupGo_sublist l seen).mem hm, hfid⟩

theorem dedupGo_firstOcc : ∀ (l : List Message) (seen : List String) (m : Message) (fid : String),
    m ∈ dedupGo l seen → dedupFileId m = some fid →
    fid ∉ seen ∧ ∃ pre post, l = pre ++ m :: post ∧ ∀ m2 ∈ pre, dedupFileId m2 ≠ some fid
  | [], seen, m, fid => by simp [dedupGo]
  | x :: rest, seen, m, fid => by
    cases h : dedupFileId x
    · rw [dedupGo_cons_none rest seen h]
      intro hmem hfid
      obtain ⟨hns, pre, post, heq, hpre⟩ := dedupGo_firstOcc rest seen m fid hmem hfid
      refine ⟨hns, x :: pre, post, by rw [heq]; rfl, ?_⟩
      intro m2 hm2
      rcases List.mem_cons.mp hm2 with h1 | h1
      · rw [h1, h]; exact fun hc => Option.noConfusion hc
      · exact hpre m2 h1
    case some t =>
      by_cases hm : t ∈ seen
      · rw [dedupGo_cons_mem rest seen h hm]
        intro hmem hfid
        obtain ⟨hns, pre, post, heq, hpre⟩ := dedupGo_firstOcc rest seen m fid hmem hfid
        refine ⟨hns, x :: pre, post, by rw [heq]; rfl, ?_⟩
        intro m2 hm2
        rcases List.mem_cons.mp hm2 with h1 | h1
        · rw [h1, h]
          intro hc
          exact hns (by rwa [← Option.some_inj.mp hc])
        · exact hpre m2 h1
      · rw [dedupGo_cons_new rest seen h hm]
        intro hmem hfid
        rcases List.mem_cons.mp hmem with h1 | h1
        · subst h1
          rw [h] at hfid
          rw [← Option.some_inj.mp hfid]
          exact ⟨hm, [], rest, rfl, by simp⟩
        · obtain ⟨hns, pre, post, heq, hpre⟩ := dedupGo_firstOcc rest (t :: seen) m fid h1 hfid
          have hft : fid ≠ t := fun hc => hns (hc ▸ List.mem_cons_self t seen)
          refine ⟨fun hc => hns (List.mem_cons_of_mem t hc), x :: pre, post,
            by rw [heq]; rfl, ?_⟩
          intro m2 hm2
          rcases List.mem_cons.mp hm2 with h1 | h1
          · rw [h1, h]
            exact fun hc => hft (Option.some_inj.mp hc).symm
          · exact hpre m2 h1

theorem dedupGo_eq_self : ∀ (l : List Message) (seen : List String),
    (∀ m ∈ l, (dedupFileId m).isSome = true) →
    (l.filterMap dedupFileId).Nodup →
    (∀ fid ∈ l.filterMap dedupFileId, fid ∉ seen) →
    dedupGo l seen = l
  | [], seen, _, _, _ => rfl
  | x :: rest, seen, hmed, hnd, hdis => by
    obtain ⟨t, ht⟩ := Option.isSome_iff_exists.mp (hmed x (List.mem_cons_self x rest))
    rw [List.filterMap_cons_some ht] at hnd hdis
    have hnd2 := List.nodup_cons.mp hnd
    rw [dedupGo_cons_new rest seen ht (hdis t (List.mem_cons_self _ _))]
    rw [dedupGo_eq_self rest (t :: seen) (fun m hm => hmed m (List.mem_cons_of_mem x hm)) hnd2.2
      (fun fid hfid hc => by
        rcases List.mem_cons.mp hc with h2 | h2
        · exact hnd2.1 (h2 ▸ hfid)
        · exact hdis fid (List.mem_cons_of_mem t hfid) h2)]

theorem length_filterMap_dedupFileId : ∀ (l : List Message),
    (∀ m ∈ l, (dedupFileId m).isSome = true) →
    (l.filterMap dedupFileId).length = l.length
  | [], _ => rfl
  | x :: rest, h => by
    obtain ⟨t, ht⟩ := Option.isSome_iff_exists.mp (h x (List.mem_cons_self x rest))
    rw [List.filterMap_cons_some ht, List.length_cons, List.length_cons,
      length_filterMap_dedupFileId rest (fun m hm => h m (List.mem_cons_of_mem x hm))]

/-! ### Lemmas about materialization and the group caption -/

theorem mkInputMedia_proj (gc : Option String) (i : Nat) (m : Message)
    (h : (dedupFileId m).isSome = true) :
    (mkInputMedia gc i m).isSome = true ∧
    (mkInputMedia gc i m).map InputMedia.caption = some (if i = 0 then gc else none) ∧
    (mkInputMedia gc i m).map InputMedia.caption_entities =
      some (if strTruthy (if i = 0 then gc else none) then m.caption_entities else none) := by
  by_cases hp : m.photo = []
  · cases hv : m.video with
    | some v => refine ⟨?_, ?_, ?_⟩ <;> simp [mkInputMedia, hp, hv]
    | none =>
      cases hd : m.document with
      | some d => refine ⟨?_, ?_, ?_⟩ <;> simp [mkInputMedia, hp, hv, hd]
      | none =>
        cases ha : m.audio with
        | some a => refine ⟨?_, ?_, ?_⟩ <;> simp [mkInputMedia, hp, hv, hd, ha]
        | none =>
          exfalso
          simp [dedupFileId, get_media_type, hp, hv, hd, ha] at h
  · refine ⟨?_, ?_, ?_⟩ <;> simp [mkInputMedia, hp]

theorem mkInputMedia_spec (gc : Option String) (i : Nat) (m : Message)
    (h : (dedupFileId m).isSome = true) :
    ∃ im, mkInputMedia gc i m = some im ∧
      im.caption = (if i = 0 then gc else none) ∧
      im.caption_entities =
        (if strTruthy (if i = 0 then gc else none) then m.caption_entities else none) := by
  obtain ⟨h1, h2, h3⟩ := mkInputMedia_proj gc i m h
  obtain ⟨im, him⟩ := Option.isSome_iff_exists.mp h1
  rw [him] at h2 h3
  exact ⟨im, him, Option.some_inj.mp h2, Option.some_inj.mp h3⟩

theorem materializeGo_get (gc : Option String) : ∀ (l : List Message) (j i : Nat),
    (∀ m ∈ l, (dedupFileId m).isSome = true) →
    (materializeGo gc j l).get? i = (l.get? i).bind (fun m => mkInputMedia gc (j + i) m)
  | [], j, i, _ => by simp [materializeGo]
  | m :: rest, j, i, hmed => by
    obtain ⟨im, him, _, _⟩ := mkInputMedia_spec gc j m (hmed m (List.mem_cons_self m rest))
    cases i
    case zero =>
      simp [materializeGo, him]
    case succ i =>
      have := materializeGo_get gc rest (j + 1) i
        (fun x hx => hmed x (List.mem_cons_of_mem m hx))
      simp only [materializeGo, him, List.get?_cons_succ, this]
      rw [show j + (i + 1) = j + 1 + i by omega]

theorem firstTruthyCaption_isSome : ∀ (l : List Message),
    (∃ m ∈ l, strTruthy m.caption = true) → ∃ s, firstTruthyCaption l = some s ∧ s ≠ ""
  | [], h => by simp at h
  | m :: rest, h => by
    by_cases hm : strTruthy m.caption = true
    · obtain ⟨s, hs⟩ : ∃ s, m.caption = some s ∧ s ≠ "" := by
        cases hc : m.caption with
        | none => rw [hc] at hm; simp [strTruthy] at hm
        | some s =>
          rw [hc] at hm
          simp only [strTruthy, decide_eq_true_eq] at hm
          exact ⟨s, rfl, hm⟩
      refine ⟨s, ?_, hs.2⟩
      rw [firstTruthyCaption, if_pos hm]
      exact hs.1
    · obtain ⟨m2, hmem, htr⟩ := h
      rcases List.mem_cons.mp hmem with h1 | h1
      · exact absurd (h1 ▸ htr) hm
      · obtain ⟨s, hs1, hs2⟩ := firstTruthyCaption_isSome rest ⟨m2, h1, htr⟩
        refine ⟨s, ?_, hs2⟩
        rw [firstTruthyCaption, if_neg hm]
        exact hs1

theorem firstTruthyCaption_spec : ∀ (l : List Message) (s : String),
    firstTruthyCaption l = some s →
    ∃ k m, l.get? k = some m ∧ m.caption = some s ∧ strTruthy m.caption = true ∧
      ∀ j m2, j < k → l.get? j = some m2 → strTruthy m2.caption = false
  | [], s => by simp [firstTruthyCaption]
  | m :: rest, s => by
    by_cases hm : strTruthy m.caption = true
    · intro h
      rw [firstTruthyCaption, if_pos hm] at h
      exact ⟨0, m, rfl, h, hm, fun j m2 hj => absurd hj (by omega)⟩
    · intro h
      rw [firstTruthyCaption, if_neg hm] at h
      obtain ⟨k, m2, hk, hcap, htr, hpre⟩ := firstTruthyCaption_spec rest s h
      refine ⟨k + 1, m2, by simpa using hk, hcap, htr, ?_⟩
      intro j m3 hj hget
      cases j with
      | zero =>
        rw [List.get?_cons_zero] at hget
        rw [← Option.some_inj.mp hget]
        simpa using hm
      | succ j =>
        exact hpre j m3 (by omega) (by simpa using hget)

/-! ### Claim theorems: Batch Canonicalizer -/

/-- A photo message used by the witnesses. -/
def exMsg (id ts : Nat) (fid : String) (cap : Option String)
    (ents : Option (List String)) : Message :=
  { message_id := id, chat_id := -1, date := ts, media_group_id := some "g", caption := cap,
    caption_entities := ents, photo := [{ file_id := fid }], video := none, document := none,
    audio := none, animation := false }

/-- A witness group with a repeated content-identity token. -/
def exDupGroup : List Message :=
  [exMsg 1 10 "a" none none, exMsg 2 20 "a" none none, exMsg 3 30 "b" none none]

/-- A witness group whose only non-empty caption (with formatting
entities) sits on the second message in sorted order. -/
def exCapGroup : List Message :=
  [exMsg 1 10 "a" none none, exMsg 2 20 "b" (some "hello") (some ["bold"])]

/-- C6: deduplication of a flushed group keeps, in sorted order, the
first occurrence of each distinct content-identity token: the output
length is the number of distinct tokens among the group's messages, the
output tokens are pairwise distinct, the output is a subsequence of the
sorted input consisting only of media-bearing messages (unsupported
kinds are dropped), each kept message is the first occurrence of its
token, and deduplication is idempotent. -/
theorem media_group_dedup (msgs : List Message) :
    (uniqueMessages msgs).length = (msgs.filterMap dedupFileId).toFinset.card ∧
    ((uniqueMessages msgs).filterMap dedupFileId).Nodup ∧
    (uniqueMessages msgs).Sublist (sortMessages msgs) ∧
    (∀ m ∈ uniqueMessages msgs, (dedupFileId m).isSome = true) ∧
    (∀ m fid, m ∈ uniqueMessages msgs → dedupFileId m = some fid →
      ∃ pre post, sortMessages msgs = pre ++ m :: post ∧
        ∀ m2 ∈ pre, dedupFileId m2 ≠ some fid) ∧
    dedupGo (uniqueMessages msgs) [] = uniqueMessages msgs := by
  have hmed : ∀ m ∈ uniqueMessages msgs, (dedupFileId m).isSome = true :=
    fun m hm => mem_dedupGo_isSome _ _ m hm
  have hnd : ((uniqueMessages msgs).filterMap dedupFileId).Nodup :=
    (dedupGo_tokens (sortMessages msgs) []).1
  refine ⟨?_, hnd, dedupGo_sublist _ _, hmed,
    fun m fid hm hfid => (dedupGo_firstOcc _ [] m fid hm hfid).2,
    dedupGo_eq_self _ [] hmed hnd (by simp)⟩
  have h1 : ((uniqueMessages msgs).filterMap dedupFileId).length = (uniqueMessages msgs).length :=
    length_filterMap_dedupFileId _ hmed
  have hpermTok : List.Perm ((sortMessages msgs).filterMap dedupFileId)
      (msgs.filterMap dedupFileId) :=
    List.Perm.filterMap dedupFileId (sortMessages_perm msgs)
  have h2 : ((uniqueMessages msgs).filterMap dedupFileId).toFinset =
      (msgs.filterMap dedupFileId).toFinset := by
    ext fid
    simp only [List.mem_toFinset]
    constructor
    · intro hmem
      exact hpermTok.mem_iff.mp (tokens_dedupGo_subset (sortMessages msgs) [] fid hmem)
    · intro hmem
      exact tokens_mem_dedupGo (sortMessages msgs) [] fid (hpermTok.mem_iff.mpr hmem)
        (by simp)
  calc (uniqueMessages msgs).length
      = ((uniqueMessages msgs).filterMap dedupFileId).length := h1.symm
    _ = ((uniqueMessages msgs).filterMap dedupFileId).dedup.length := by rw [hnd.dedup]
    _ = ((uniqueMessages msgs).filterMap dedupFileId).toFinset.card :=
        (List.card_toFinset _).symm
    _ = (msgs.filterMap dedupFileId).toFinset.card := by rw [h2]

/-- C6 witness: a concrete group with tokens a, a, b canonicalizes to
exactly two items and deduplication is idempotent on it. -/
theorem media_group_dedup_witness :
    (uniqueMessages exDupGroup).length = (exDupGroup.filterMap dedupFileId).toFinset.card ∧
    dedupGo (uniqueMessages exDupGroup) [] = uniqueMessages exDupGroup :=
  ⟨(media_group_dedup exDupGroup).1, (media_group_dedup exDupGroup).2.2.2.2.2⟩

/-- C7: the flushed batch is sorted by the `(timestamp, message id)` key
(so the deduplicated sequence handed to materialization is too), the
sorted sequence is a permutation of the buffered messages, and — when
the sort keys are pairwise distinct, as with origin-assigned unique
message ids — any two arrival orders of the same messages canonicalize
to the same sorted sequence. -/
theorem media_group_ordering :
    (∀ msgs : List Message,
       List.Sorted msgLe (sortMessages msgs) ∧
       List.Perm (sortMessages msgs) msgs ∧
       List.Sorted msgLe (uniqueMessages msgs)) ∧
    (∀ msgs1 msgs2 : List Message, List.Perm msgs1 msgs2 → (msgs1.map msgKey).Nodup →
       sortMessages msgs1 = sortMessages msgs2) := by
  constructor
  · intro msgs
    exact ⟨sortMessages_sorted msgs, sortMessages_perm msgs,
      List.Pairwise.sublist (dedupGo_sublist _ _) (sortMessages_sorted msgs)⟩
  · intro l1 l2 hp hnd
    have hperm : List.Perm (sortMessages l1) (sortMessages l2) :=
      ((sortMessages_perm l1).trans hp).trans (sortMessages_perm l2).symm
    have hnd1 : ((sortMessages l1).map msgKey).Nodup :=
      (List.Perm.nodup_iff (List.Perm.map msgKey (sortMessages_perm l1))).mpr hnd
    have hnd2 : ((sortMessages l2).map msgKey).Nodup :=
      (List.Perm.nodup_iff (List.Perm.map msgKey hperm)).mp hnd1
    have hne1 : (sortMessages l1).Pairwise (fun a b => msgKey a ≠ msgKey b) :=
      List.pairwise_map.mp hnd1
    have hne2 : (sortMessages l2).Pairwise (fun a b => msgKey a ≠ msgKey b) :=
      List.pairwise_map.mp hnd2
    have hs1 : List.Sorted msgLt (sortMessages l1) :=
      ((sortMessages_sorted l1).and hne1).imp (fun h => h)
    have hs2 : List.Sorted msgLt (sortMessages l2) :=
      ((sortMessages_sorted l2).and hne2).imp (fun h => h)
    exact List.eq_of_perm_of_sorted hperm hs1 hs2

/-- C7 witness: two arrival orders of the same two messages sort to the
same batch, and that batch is sorted by the key. -/
theorem media_group_ordering_witness :
    sortMessages [exMsg 2 20 "b" none none, exMsg 1 10 "a" none none] =
      sortMessages [exMsg 1 10 "a" none none, exMsg 2 20 "b" none none] ∧
    List.Sorted msgLe (sortMessages [exMsg 2 20 "b" none none, exMsg 1 10 "a" none none]) :=
  ⟨media_group_ordering.2 [exMsg 2 20 "b" none none, exMsg 1 10 "a" none none]
      [exMsg 1 10 "a" none none, exMsg 2 20 "b" none none]
      (List.Perm.swap _ _ []) (by decide),
   (media_group_ordering.1 [exMsg 2 20 "b" none none, exMsg 1 10 "a" none none]).1⟩

/-- C5: for a flushed group whose deduplicated sequence has at least one
non-empty caption, the output item at position 0 exists and carries the
first non-empty caption of the sorted deduplicated sequence, every other
output position carries no caption, and the chosen caption is indeed the
first non-empty one (all earlier positions have falsy captions). -/
theorem media_group_caption (msgs : List Message)
    (h : ∃ m ∈ uniqueMessages msgs, strTruthy m.caption = true) :
    (∃ im0, (canonicalBatch msgs).get? 0 = some im0 ∧
       im0.caption = firstTruthyCaption (uniqueMessages msgs) ∧ im0.caption ≠ none) ∧
    (∀ i im, (canonicalBatch msgs).get? i = some im → i ≠ 0 → im.caption = none) ∧
    (∃ k m, (uniqueMessages msgs).get? k = some m ∧
       firstTruthyCaption (uniqueMessages msgs) = m.caption ∧ strTruthy m.caption = true ∧
       ∀ j m2, j < k → (uniqueMessages msgs).get? j = some m2 →
         strTruthy m2.caption = false) := by
  obtain ⟨s, hgc, hsne⟩ := firstTruthyCaption_isSome _ h
  have hmed : ∀ m ∈ uniqueMessages msgs, (dedupFileId m).isSome = true :=
    fun m hm => mem_dedupGo_isSome _ _ m hm
  obtain ⟨m1, hm1mem, _⟩ := h
  obtain ⟨m0, hm0⟩ : ∃ m0, (uniqueMessages msgs).get? 0 = some m0 := by
    cases hu : uniqueMessages msgs with
    | nil => rw [hu] at hm1mem; simp at hm1mem
    | cons a l => exact ⟨a, rfl⟩
  have hbatch : ∀ i, (canonicalBatch msgs).get? i =
      ((uniqueMessages msgs).get? i).bind
        (fun m => mkInputMedia (firstTruthyCaption (uniqueMessages msgs)) i m) := by
    intro i
    have := materializeGo_get (firstTruthyCaption (uniqueMessages msgs))
      (uniqueMessages msgs) 0 i hmed
    rw [canonicalBatch, this, Nat.zero_add]
  refine ⟨?_, ?_, ?_⟩
  · obtain ⟨im, him, hcap, _⟩ := mkInputMedia_spec (firstTruthyCaption (uniqueMessages msgs))
      0 m0 (hmed m0 (List.get?_mem hm0))
    refine ⟨im, ?_, ?_, ?_⟩
    · rw [hbatch 0, hm0]
      exact him
    · rw [hcap]; rfl
    · rw [hcap]
      simp [hgc]
  · intro i im hbi hi
    rw [hbatch i] at hbi
    cases hu : (uniqueMessages msgs).get? i with
    | none => rw [hu] at hbi; exact absurd hbi (by simp)
    | some m =>
      rw [hu] at hbi
      obtain ⟨im2, him2, hcap2, _⟩ := mkInputMedia_spec (firstTruthyCaption (uniqueMessages msgs))
        i m (hmed m (List.get?_mem hu))
      simp only [Option.some_bind] at hbi
      rw [hbi] at him2
      rw [Option.some_inj.mp him2, hcap2, if_neg hi]
  · obtain ⟨k, m, hk, hcap, htr, hpre⟩ := firstTruthyCaption_spec _ s hgc
    exact ⟨k, m, hk, by rw [hgc, hcap], htr, hpre⟩

/-- C5 witness: in a concrete group whose caption sits on the second
sorted message, position 0 carries that caption and no other position
carries one. -/
theorem media_group_caption_witness :
    ∃ im0, (canonicalBatch exCapGroup).get? 0 = some im0 ∧
      im0.caption = firstTruthyCaption (uniqueMessages exCapGroup) ∧ im0.caption ≠ none :=
  (media_group_caption exCapGroup
    ⟨exMsg 2 20 "b" (some "hello") (some ["bold"]), by decide, by decide⟩).1

/-- C10: when the batch is materialized with at least one non-empty
caption present, the caption entities attached to output position 0 are
those of the first message of the deduplicated sequence, even though the
caption text is the first non-empty caption, which may come from a later
message. -/
theorem media_group_caption_entities (msgs : List Message)
    (h : ∃ m ∈ uniqueMessages msgs, strTruthy m.caption = true) :
    ∃ m0 im0, (uniqueMessages msgs).get? 0 = some m0 ∧
      (canonicalBatch msgs).get? 0 = some im0 ∧
      im0.caption_entities = m0.caption_entities ∧
      im0.caption = firstTruthyCaption (uniqueMessages msgs) := by
  obtain ⟨s, hgc, hsne⟩ := firstTruthyCaption_isSome _ h
  have hmed : ∀ m ∈ uniqueMessages msgs, (dedupFileId m).isSome = true :=
    fun m hm => mem_dedupGo_isSome _ _ m hm
  obtain ⟨m1, hm1mem, _⟩ := h
  obtain ⟨m0, hm0⟩ : ∃ m0, (uniqueMessages msgs).get? 0 = some m0 := by
    cases hu : uniqueMessages msgs with
    | nil => rw [hu] at hm1mem; simp at hm1mem
    | cons a l => exact ⟨a, rfl⟩
  obtain ⟨im, him, hcap, hents⟩ := mkInputMedia_spec (firstTruthyCaption (uniqueMessages msgs))
    0 m0 (hmed m0 (List.get?_mem hm0))
  refine ⟨m0, im, hm0, ?_, ?_, by rw [hcap]; rfl⟩
  · have := materializeGo_get (firstTruthyCaption (uniqueMessages msgs))
      (uniqueMessages msgs) 0 0 hmed
    rw [canonicalBatch, this, Nat.zero_add, hm0]
    exact him
  · rw [hents]
    simp [hgc, strTruthy, hsne]

/-- C10 witness: concretely, the first sorted message has no caption and
no entities, the second carries the caption; position 0 is emitted with
the second message's caption text but the first message's (absent)
entities. -/
theorem media_group_caption_entities_witness :
    ∃ m0 im0, (uniqueMessages exCapGroup).get? 0 = some m0 ∧
      (canonicalBatch exCapGroup).get? 0 = some im0 ∧
      im0.caption_entities = m0.caption_entities ∧
      im0.caption = firstTruthyCaption (uniqueMessages exCapGroup) :=
  media_group_caption_entities exCapGroup
    ⟨exMsg 2 20 "b" (some "hello") (some ["bold"]), by decide, by decide⟩

/-! ### Lemmas about the aggregator state -/

theorem alistGet_upd_self {α : Type} : ∀ (l : List (String × α)) (k : String) (dflt : α)
    (f : α → α), alistGet (alistUpd l k dflt f) k = some (f ((alistGet l k).getD dflt))
  | [], k, dflt, f => by simp [alistGet, alistUpd]
  | (k0, v) :: rest, k, dflt, f => by
    by_cases h : k0 = k
    · simp [alistGet, alistUpd, h]
    · simp only [alistUpd, if_neg h, alistGet]
      exact alistGet_upd_self rest k dflt f

theorem alistGet_upd_ne {α : Type} : ∀ (l : List (String × α)) (k k2 : String) (dflt : α)
    (f : α → α), k ≠ k2 → alistGet (alistUpd l k dflt f) k2 = alistGet l k2
  | [], k, k2, dflt, f, h => by simp [alistGet, alistUpd, h]
  | (k0, v) :: rest, k, k2, dflt, f, h => by
    by_cases h0 : k0 = k
    · simp only [alistUpd, if_pos h0, alistGet]
      rw [if_neg (h0 ▸ h), if_neg (h0 ▸ h)]
    · simp only [alistUpd, if_neg h0, alistGet]
      by_cases h2 : k0 = k2
      · rw [if_pos h2, if_pos h2]
      · rw [if_neg h2, if_neg h2]
        exact alistGet_upd_ne rest k k2 dflt f h

theorem alistGet_erase_self {α : Type} : ∀ (l : List (String × α)) (k : String),
    alistGet (alistErase l k) k = none
  | [], k => rfl
  | (k0, v) :: rest, k => by
    by_cases h : k0 = k
    · simp only [alistErase, List.filter_cons]
      rw [if_neg (by simp [h])]
      exact alistGet_erase_self rest k
    · simp only [alistErase, List.filter_cons]
      rw [if_pos (by simp [h])]
      simp only [alistGet, if_neg h]
      exact alistGet_erase_self rest k

theorem alistGet_erase_ne {α : Type} : ∀ (l : List (String × α)) (k k2 : String),
    k ≠ k2 → alistGet (alistErase l k) k2 = alistGet l k2
  | [], k, k2, h => rfl
  | (k0, v) :: rest, k, k2, h => by
    by_cases h0 : k0 = k
    · simp only [alistErase, List.filter_cons]
      rw [if_neg (by simp [h0])]
      rw [alistGet, if_neg (by rw [h0]; exact h0 ▸ h)]
      exact alistGet_erase_ne rest k k2 h
    · simp only [alistErase, List.filter_cons]
      rw [if_pos (by simp [h0])]
      simp only [alistGet]
      by_cases h2 : k0 = k2
      · rw [if_pos h2, if_pos h2]
      · rw [if_neg h2, if_neg h2]
        exact alistGet_erase_ne rest k k2 h

theorem mem_setAdd (s : List String) (k x : String) :
    x ∈ setAdd s k ↔ x = k ∨ x ∈ s := by
  unfold setAdd
  by_cases h : k ∈ s
  · rw [if_pos h]
    constructor
    · exact Or.inr
    · rintro (rfl | hx)
      · exact h
      · exact hx
  · rw [if_neg h]
    exact List.mem_cons

theorem mem_setDiscard (s : List String) (k x : String) :
    x ∈ setDiscard s k ↔ x ∈ s ∧ x ≠ k := by
  simp [setDiscard, List.mem_filter]

theorem process_media_group_fst (st : ForwarderState) (gid : String) :
    (process_media_group st gid).1 =
      { st with media_groups := alistErase st.media_groups gid,
                scheduled_media_groups := setDiscard st.scheduled_media_groups gid,
                media_group_counts := alistErase st.media_group_counts gid } := by
  rw [process_media_group]
  dsimp only
  split_ifs <;> rfl

theorem forward_message_group (st : ForwarderState) (msg : Message) (gid : String)
    (hchat : st.source_id = some msg.chat_id)
    (hdest : intTruthy st.destination_id = true)
    (hval : validOk { source_id := st.source_id, destination_id := st.destination_id } = true)
    (hgid : msg.media_group_id = some gid) (hne : gid ≠ "") :
    forward_message st msg = groupStep st msg gid := by
  rw [forward_message, if_neg (by rw [hchat]; simp), if_neg (by rw [hdest]; simp),
    if_neg (by rw [hval]; simp)]
  simp only [hgid]
  rw [if_neg hne]

theorem forward_message_cases (st : ForwarderState) (msg : Message) :
    (forward_message st msg).1 = st ∨
    ∃ gid, msg.media_group_id = some gid ∧ gid ≠ "" ∧
      forward_message st msg = groupStep st msg gid := by
  rw [forward_message]
  split_ifs
  · left; rfl
  · left; rfl
  · left; rfl
  · cases hg : msg.media_group_id with
    | none => left; rfl
    | some gid =>
      by_cases hne : gid = ""
      · left
        simp [hne]
      · right
        exact ⟨gid, rfl, hne, by simp [hne]⟩

/-! ### Claim theorems: Group Aggregator / Dispatch Router -/

/-- A state with nine buffered messages for group "g", a scheduled mark
and a pending debounce job, and a valid configuration. -/
def exFullState : ForwarderState :=
  { media_groups := [("g", (List.range 9).map (fun i => exMsg i (10 * i) (toString i) none none))],
    media_group_counts := [("g", 9)], scheduled_media_groups := ["g"], jobs := ["g"],
    source_id := some (-1), destination_id := some (-2) }

/-- C8: when an inbound group message passes the dispatch guards and
brings the group's buffered count to `MAX_MEDIA_GROUP_SIZE`, the group
is flushed synchronously within the same handler step: in the returned
state the buffer entry, the scheduled mark, the count and the pending
debounce job for that group are all gone, no fresh debounce job is
enqueued (the timer is bypassed), and the canonical batch built from the
buffered messages plus the new one is sent in this very step. -/
theorem capacity_flush (st : ForwarderState) (msg : Message) (gid : String)
    (hchat : st.source_id = some msg.chat_id)
    (hdest : intTruthy st.destination_id = true)
    (hval : validOk { source_id := st.source_id, destination_id := st.destination_id } = true)
    (hgid : msg.media_group_id = some gid) (hne : gid ≠ "")
    (hsched : gid ∈ st.scheduled_media_groups)
    (hcap : MAX_MEDIA_GROUP_SIZE ≤ (alistGet st.media_group_counts gid).getD 0 + 1) :
    alistGet (forward_message st msg).1.media_groups gid = none ∧
    gid ∉ (forward_message st msg).1.scheduled_media_groups ∧
    alistGet (forward_message st msg).1.media_group_counts gid = none ∧
    gid ∉ (forward_message st msg).1.jobs ∧
    (forward_message st msg).2 =
      (if canonicalBatch ((alistGet st.media_groups gid).getD [] ++ [msg]) = [] then []
       else [Action.sendMediaGroup
         (canonicalBatch ((alistGet st.media_groups gid).getD [] ++ [msg]))]) := by
  rw [forward_message_group st msg gid hchat hdest hval hgid hne, groupStep]
  dsimp only
  have hc : MAX_MEDIA_GROUP_SIZE ≤
      (alistGet (alistUpd st.media_group_counts gid 0 (fun n => n + 1)) gid).getD 0 := by
    rw [alistGet_upd_self]
    simpa using hcap
  rw [if_pos hc, if_pos hsched]
  refine ⟨?_, ?_, ?_, ?_, ?_⟩
  · simp only [process_media_group_fst]
    exact alistGet_erase_self _ _
  · simp only [process_media_group_fst]
    simp [mem_setDiscard]
  · simp only [process_media_group_fst]
    exact alistGet_erase_self _ _
  · simp only [process_media_group_fst]
    simp [List.mem_filter]
  · rw [process_media_group]
    dsimp only
    rw [alistGet_upd_self]
    simp only [Option.getD_some]
    rw [if_neg (by simp)]
    split_ifs <;> rfl

/-- C8 witness: a tenth message for a fully buffered group flushes it in
the same step, erasing all aggregator state for the group, scheduling no
timer, and emitting the batch send. -/
theorem capacity_flush_witness :
    alistGet (forward_message exFullState (exMsg 9 90 "x9" none none)).1.media_groups "g"
        = none ∧
    "g" ∉ (forward_message exFullState (exMsg 9 90 "x9" none none)).1.scheduled_media_groups ∧
    alistGet (forward_message exFullState
        (exMsg 9 90 "x9" none none)).1.media_group_counts "g" = none ∧
    "g" ∉ (forward_message exFullState (exMsg 9 90 "x9" none none)).1.jobs ∧
    (forward_message exFullState (exMsg 9 90 "x9" none none)).2 =
      (if canonicalBatch ((alistGet exFullState.media_groups "g").getD []
          ++ [exMsg 9 90 "x9" none none]) = [] then []
       else [Action.sendMediaGroup
         (canonicalBatch ((alistGet exFullState.media_groups "g").getD []
           ++ [exMsg 9 90 "x9" none none]))]) :=
  capacity_flush exFullState (exMsg 9 90 "x9" none none) "g" rfl (by decide) (by decide)
    rfl (by decide) (by decide) (by decide)

/-- C9: (1) every handler or flush step preserves the pending-group
invariant: a group id is in the buffer iff it is marked scheduled, and
iff it has a recorded count; (2) the state a flush returns has the
buffer entry, the scheduled mark and the count for the flushed id all
erased — the emitted transport send is computed from the popped
messages, after the erasure; (3) from a state holding no buffer entry
and no count for an id, a guard-passing message carrying that id starts
a brand-new lifecycle: the buffer holds exactly that message and the
count restarts at 1. -/
theorem pending_group_invariant :
    (∀ (st : ForwarderState) (e : Event), groupInv st → groupInv (stepEvent st e).1) ∧
    (∀ (st : ForwarderState) (gid : String),
       alistGet (process_media_group st gid).1.media_groups gid = none ∧
       gid ∉ (process_media_group st gid).1.scheduled_media_groups ∧
       alistGet (process_media_group st gid).1.media_group_counts gid = none) ∧
    (∀ (st : ForwarderState) (gid : String) (msg : Message),
       alistGet st.media_groups gid = none → alistGet st.media_group_counts gid = none →
       st.source_id = some msg.chat_id → intTruthy st.destination_id = true →
       validOk { source_id := st.source_id, destination_id := st.destination_id } = true →
       msg.media_group_id = some gid → gid ≠ "" →
       alistGet (forward_message st msg).1.media_groups gid = some [msg] ∧
       alistGet (forward_message st msg).1.media_group_counts gid = some 1) := by
  refine ⟨?_, ?_, ?_⟩
  · intro st e hinv
    cases e with
    | timerFire gid =>
      intro gid2
      simp only [stepEvent, process_media_group_fst]
      by_cases h : gid2 = gid
      · subst h
        simp [alistGet_erase_self, mem_setDiscard]
      · rw [alistGet_erase_ne _ gid gid2 (Ne.symm h), alistGet_erase_ne _ gid gid2 (Ne.symm h)]
        obtain ⟨h1, h2⟩ := hinv gid2
        constructor
        · rw [mem_setDiscard]
          exact ⟨fun hx => ⟨h1.mp hx, h⟩, fun hx => h1.mpr hx.1⟩
        · exact h2
    | inbound msg =>
      rcases forward_message_cases st msg with h | ⟨gid, hgid, hne, h⟩
      · simp only [stepEvent]
        rw [h]
        exact hinv
      · simp only [stepEvent]
        rw [h, groupStep]
        dsimp only
        by_cases hcap : MAX_MEDIA_GROUP_SIZE ≤
            (alistGet (alistUpd st.media_group_counts gid 0 (fun n => n + 1)) gid).getD 0
        · rw [if_pos hcap]
          intro gid2
          simp only [process_media_group_fst]
          by_cases h2 : gid2 = gid
          · subst h2
            simp [alistGet_erase_self, mem_setDiscard]
          · rw [alistGet_erase_ne _ gid gid2 (Ne.symm h2),
              alistGet_upd_ne _ gid gid2 _ _ (Ne.symm h2),
              alistGet_erase_ne _ gid gid2 (Ne.symm h2),
              alistGet_upd_ne _ gid gid2 _ _ (Ne.symm h2)]
            obtain ⟨h1', h2'⟩ := hinv gid2
            constructor
            · rw [mem_setDiscard]
              exact ⟨fun hx => ⟨h1'.mp hx, h2⟩, fun hx => h1'.mpr hx.1⟩
            · exact h2'
        · rw [if_neg hcap]
          intro gid2
          dsimp only
          by_cases h2 : gid2 = gid
          · subst h2
            rw [alistGet_upd_self, alistGet_upd_self]
            simp [mem_setAdd]
          · rw [alistGet_upd_ne _ gid gid2 _ _ (Ne.symm h2),
              alistGet_upd_ne _ gid gid2 _ _ (Ne.symm h2)]
            obtain ⟨h1', h2'⟩ := hinv gid2
            constructor
            · rw [mem_setAdd]
              exact ⟨fun hx => Or.inr (h1'.mp hx), fun hx => h1'.mpr (hx.resolve_left h2)⟩
            · exact h2'
  · intro st gid
    refine ⟨?_, ?_, ?_⟩ <;> simp only [process_media_group_fst] <;>
      simp [alistGet_erase_self, mem_setDiscard]
  · intro st gid msg hg hc hchat hdest hval hgid hne
    rw [forward_message_group st msg gid hchat hdest hval hgid hne, groupStep]
    dsimp only
    have hlt : ¬ MAX_MEDIA_GROUP_SIZE ≤
        (alistGet (alistUpd st.media_group_counts gid 0 (fun n => n + 1)) gid).getD 0 := by
      rw [alistGet_upd_self, hc]
      simp [MAX_MEDIA_GROUP_SIZE]
    rw [if_neg hlt]
    constructor
    · dsimp only
      rw [alistGet_upd_self, hg]
      rfl
    · dsimp only
      rw [alistGet_upd_self, hc]
      rfl

/-- C9 witness: the invariant is preserved by a concrete
capacity-triggering step from a concrete invariant-satisfying state, a
concrete flush erases the group id, and a post-flush message restarts
the count at 1. -/
theorem pending_group_invariant_witness :
    groupInv (stepEvent exFullState (Event.inbound (exMsg 9 90 "x9" none none))).1 ∧
    alistGet (process_media_group exFullState "g").1.media_groups "g" = none ∧
    alistGet (forward_message (process_media_group exFullState "g").1
        (exMsg 9 90 "x9" none none)).1.media_group_counts "g" = some 1 := by
  have hinv : groupInv exFullState := by
    intro gid
    by_cases h : "g" = gid
    · subst h
      constructor
      · constructor
        · intro _; exact List.mem_cons_self _ _
        · intro _; rw [exFullState]; simp [alistGet]
      · constructor
        · intro _; rw [exFullState]; simp [alistGet]
        · intro _; rw [exFullState]; simp [alistGet]
    · have h2 : gid ≠ "g" := fun hc => h hc.symm
      rw [exFullState]
      simp [alistGet, h, h2]
  refine ⟨pending_group_invariant.1 exFullState (Event.inbound (exMsg 9 90 "x9" none none)) hinv,
    (pending_group_invariant.2.1 exFullState "g").1,
    (pending_group_invariant.2.2 (process_media_group exFullState "g").1 "g"
      (exMsg 9 90 "x9" none none) (by decide) (by decide) (by decide) (by decide) (by decide)
      (by decide) (by decide)).2⟩

end ForwardBot
